import Mathlib

/-!
Verification of the heading/outline extraction pipeline in `app/main.py`.

The pipeline operates on per-line text blocks extracted from a document.  We
embed the post-extraction part of the program: blocks are records carrying the
fields the Python dicts carry, with `font_size : Option ℚ` (the Python value
may be `None`), and text handled as Lean `String`s with ASCII models of the
Python string predicates and of the specific regular expressions the source
uses.  Fallible Python code (expressions that can raise, e.g. comparing `None`
with a number) is embedded in `Except Unit`; the top-level `try/except` of
`process_pdf_for_outline` becomes a `match` on that `Except`.

Numeric values (font sizes, scores, coordinates) are embedded as `ℚ`: every
constant the program manipulates is a small multiple of 1/2, represented
exactly by the floats in the source, so rational arithmetic is faithful.
-/

set_option maxRecDepth 20000

namespace PdfOutline

/-! ### Character classes (ASCII models of the Python/`re` classes) -/

/-- Whitespace characters recognised by Python's `str.strip`, `str.split` and
the regex class `\s` (ASCII range). -/
def isPySpace (c : Char) : Bool :=
  c == ' ' || c == '\t' || c == '\n' || c == '\r' || c == '\x0b' || c == '\x0c'

/-- The regex class `[A-Z]` (no IGNORECASE). -/
def isUpperAZ (c : Char) : Bool := 'A' ≤ c && c ≤ 'Z'

/-- The regex class `[a-z]` (no IGNORECASE). -/
def isLowerAZ (c : Char) : Bool := 'a' ≤ c && c ≤ 'z'

/-- The regex class `\d` (ASCII digits). -/
def isDigitC (c : Char) : Bool := '0' ≤ c && c ≤ '9'

/-- Any ASCII letter: what `[A-Z]` or `[a-z]` match under `re.IGNORECASE`. -/
def isLetterAZ (c : Char) : Bool := isUpperAZ c || isLowerAZ c

/-- The regex class `\w` (ASCII), used for the word boundary `\b`. -/
def isWordChar (c : Char) : Bool := isLetterAZ c || isDigitC c || c == '_'

/-! ### Python string operations -/

/-- Python `str.strip()`. -/
def pyStrip (s : String) : String :=
  String.mk (((s.data.dropWhile isPySpace).reverse.dropWhile isPySpace).reverse)

/-- Python `str.lower()` (ASCII). -/
def pyLower (s : String) : String :=
  String.mk (s.data.map Char.toLower)

/-- Helper for `pySplit`: accumulates the current token (reversed). -/
def pySplitAux : List Char → List Char → List String
  | [], acc => if acc.isEmpty then [] else [String.mk acc.reverse]
  | c :: rest, acc =>
    if isPySpace c then
      if acc.isEmpty then pySplitAux rest []
      else String.mk acc.reverse :: pySplitAux rest []
    else pySplitAux rest (c :: acc)

/-- Python `str.split()` with no separator: split on whitespace runs,
dropping empty pieces. -/
def pySplit (s : String) : List String := pySplitAux s.data []

/-- Python `str.isupper()` (ASCII): at least one cased character and no
lowercase one. -/
def pyIsUpper (s : String) : Bool :=
  s.data.any isUpperAZ && !(s.data.any isLowerAZ)

/-- Helper for `pyIsTitle`: `prevCased` says whether the previous character
was a letter, `seen` whether any cased character occurred yet. -/
def pyIsTitleAux : List Char → Bool → Bool → Bool
  | [], _, seen => seen
  | c :: rest, prevCased, seen =>
    if isUpperAZ c then
      if prevCased then false else pyIsTitleAux rest true true
    else if isLowerAZ c then
      if prevCased then pyIsTitleAux rest true true else false
    else pyIsTitleAux rest false seen

/-- Python `str.istitle()` (ASCII): uppercase letters only follow uncased
characters, lowercase letters only follow cased ones, at least one letter. -/
def pyIsTitle (s : String) : Bool := pyIsTitleAux s.data false false

/-- Substring containment on char lists: Python's `needle in hay`. -/
def listContains (needle hay : List Char) : Bool :=
  hay.tails.any (fun t => needle.isPrefixOf t)

/-- Python's `needle in hay` on strings. -/
def strIn (needle hay : String) : Bool := listContains needle.data hay.data

/-- The `replace('–','-').replace('—','-')` normalisation from
`detect_headings_universal` (each a single-character replacement). -/
def cleanDashes (s : String) : String :=
  String.mk (s.data.map (fun c => if c = '–' ∨ c = '—' then '-' else c))

/-! ### Data model -/

/-- One text block produced by `extract_text_and_properties_from_pdf`: the
dict with keys `text`, `page`, `x0`, `y0`, `x1`, `y1`, `font_size`, `bold`,
`line_height`.  `font_size` is `none` when no `LTChar` was found on the line
(Python `None`). -/
structure Block where
  text : String
  page : Nat
  x0 : ℚ
  y0 : ℚ
  x1 : ℚ
  y1 : ℚ
  font_size : Option ℚ
  bold : Bool
  line_height : ℚ
deriving DecidableEq

/-- One outline entry `{"level": ..., "text": ..., "page": ...}`. -/
structure Entry where
  level : String
  text : String
  page : Nat
deriving DecidableEq

/-- The result dict `{"title": ..., "outline": ...}` of
`process_pdf_for_outline`. -/
structure DocumentResult where
  title : String
  outline : List Entry
deriving DecidableEq

/-! ### The regular expressions of `is_real_heading`

Each Python pattern is transcribed as a boolean function on the character
list.  `re.match` anchors at the start; patterns ending in `$` must consume
the whole (already stripped) string.  All character classes involved in one
pattern are pairwise disjoint, so greedy maximal-munch scanning is equivalent
to the backtracking semantics. -/

/-- Pattern `^[A-Z][a-z]*\s*:?\s*$` (case-sensitive): single capitalised word,
optional colon. -/
def matchFF1 (cs : List Char) : Bool :=
  match cs with
  | c :: rest =>
    isUpperAZ c &&
      (let r1 := (rest.dropWhile isLowerAZ).dropWhile isPySpace
       let r2 := match r1 with | ':' :: t => t | t => t
       (r2.dropWhile isPySpace).isEmpty)
  | [] => false

/-- Pattern `^\d+\.\s*$`: a bare numbered-list marker such as "1.". -/
def matchFF2 (cs : List Char) : Bool :=
  match cs with
  | c :: rest =>
    isDigitC c &&
      (match rest.dropWhile isDigitC with
       | '.' :: t => (t.dropWhile isPySpace).isEmpty
       | _ => false)
  | [] => false

/-- Pattern `^S\.No\.?\s*$`: a serial-number marker. -/
def matchFF3 (cs : List Char) : Bool :=
  match cs with
  | 'S' :: '.' :: 'N' :: 'o' :: rest =>
    (let r := match rest with | '.' :: t => t | t => t
     (r.dropWhile isPySpace).isEmpty)
  | _ => false

/-- Pattern `^Rs\.\s*$`: a bare currency marker. -/
def matchFF4 (cs : List Char) : Bool :=
  match cs with
  | 'R' :: 's' :: '.' :: rest => (rest.dropWhile isPySpace).isEmpty
  | _ => false

/-- All four `form_field_patterns` of `is_real_heading`. -/
def formFieldMatch (cs : List Char) : Bool :=
  matchFF1 cs || matchFF2 cs || matchFF3 cs || matchFF4 cs

/-- Case-insensitive literal match: consumes `pat` (given lowercase) from the
front of `cs`, returning the remainder on success. -/
def ciLit : List Char → List Char → Option (List Char)
  | [], cs => some cs
  | p :: ps, c :: cs => if c.toLower == p then ciLit ps cs else none
  | _ :: _, [] => none

/-- Matches `\s+` then applies `p` to what follows the whitespace run. -/
def spacePlusThen (p : List Char → Bool) (cs : List Char) : Bool :=
  match cs with
  | c :: rest => isPySpace c && p (rest.dropWhile isPySpace)
  | [] => false

/-- Head character is a digit. -/
def headDigit : List Char → Bool
  | c :: _ => isDigitC c
  | [] => false

/-- Head character is a letter (what `[A-Z]` matches under IGNORECASE). -/
def headLetter : List Char → Bool
  | c :: _ => isLetterAZ c
  | [] => false

/-- Pattern `^\d+\.\s+[A-Z][a-z]+` under IGNORECASE ("1. Introduction"). -/
def matchSH1 (cs : List Char) : Bool :=
  match cs with
  | c :: rest =>
    isDigitC c &&
      (match rest.dropWhile isDigitC with
       | '.' :: t =>
         spacePlusThen
           (fun u => match u with
             | c1 :: c2 :: _ => isLetterAZ c1 && isLetterAZ c2
             | _ => false) t
       | _ => false)
  | [] => false

/-- Pattern `^\d+\.\d+\s+[A-Z]` under IGNORECASE ("1.1 Subsection"). -/
def matchSH2 (cs : List Char) : Bool :=
  match cs with
  | c :: rest =>
    isDigitC c &&
      (match rest.dropWhile isDigitC with
       | '.' :: d :: t =>
         isDigitC d && spacePlusThen headLetter (t.dropWhile isDigitC)
       | _ => false)
  | [] => false

/-- Pattern `^kw\s+\d+` under IGNORECASE, for `kw ∈ {Chapter, Section}`. -/
def matchKwNum (kw : String) (cs : List Char) : Bool :=
  match ciLit kw.data cs with
  | some rest => spacePlusThen headDigit rest
  | none => false

/-- Pattern `^Appendix\s+[A-Z]` under IGNORECASE. -/
def matchAppendixId (cs : List Char) : Bool :=
  match ciLit "appendix".data cs with
  | some rest => spacePlusThen headLetter rest
  | none => false

/-- The keyword patterns of `strong_heading_patterns` (no word boundary):
a case-insensitive literal at the start of the line. -/
def strongKeywords : List String :=
  ["table of contents", "revision history", "acknowledgements", "references",
   "abstract", "introduction", "conclusion", "overview", "summary", "background"]

/-- The whole `strong_heading_patterns` list of `is_real_heading`. -/
def strongHeadingMatch (cs : List Char) : Bool :=
  matchSH1 cs || matchSH2 cs || matchKwNum "chapter" cs || matchKwNum "section" cs ||
    matchAppendixId cs || strongKeywords.any (fun k => (ciLit k.data cs).isSome)

/-- Case-insensitive word at the start of the line followed by `\b`: a word
boundary holds after the (letter-final) keyword iff the next character is not
a word character, or the string ends. -/
def ciWordAt (pat : String) (cs : List Char) : Bool :=
  match ciLit pat.data cs with
  | some rest =>
    (match rest with
     | [] => true
     | c :: _ => !(isWordChar c))
  | none => false

/-- Loop of `semNum` with explicit fuel (structural recursion so the kernel
can evaluate it): after the leading `\d+`, consume `(\.\d+)*` and then require
one whitespace character (`\s+`, prefix match).  Each iteration consumes at
least two characters while the fuel drops by one, so fuel `= length` never
runs out. -/
def semNumLoopF : Nat → List Char → Bool
  | _, [] => false
  | 0, _ :: _ => false
  | _ + 1, ['.'] => false
  | fuel + 1, '.' :: d :: rest2 =>
    if isDigitC d then semNumLoopF fuel (rest2.dropWhile isDigitC) else false
  | _ + 1, c :: _ => isPySpace c

/-- Loop of `semNum`: `(\.\d+)*\s+` after the leading digits. -/
def semNumLoop (cs : List Char) : Bool := semNumLoopF cs.length cs

/-- Pattern `^\d+(\.\d+)*\s+` under IGNORECASE: dotted section number then space. -/
def semNum (cs : List Char) : Bool :=
  match cs with
  | c :: rest => isDigitC c && semNumLoop (rest.dropWhile isDigitC)
  | [] => false

/-- Pattern `^\d+\.\s+[A-Z]` under IGNORECASE. -/
def matchSem4 (cs : List Char) : Bool :=
  match cs with
  | c :: rest =>
    isDigitC c &&
      (match rest.dropWhile isDigitC with
       | '.' :: t => spacePlusThen headLetter t
       | _ => false)
  | [] => false

/-- Words `(Appendix|Phase|Section|Chapter)` of the second semantic pattern. -/
def semStartWords : List String := ["appendix", "phase", "section", "chapter"]

/-- The keyword vocabulary of the third semantic pattern. -/
def semKeywords : List String :=
  ["summary", "background", "timeline", "milestones", "conclusion",
   "evaluation", "approach", "overview", "references", "training"]

/-- The `semantic_patterns` list of `detect_headings_universal`. -/
def semanticMatch (cs : List Char) : Bool :=
  semNum cs || semStartWords.any (fun k => ciWordAt k cs) ||
    semKeywords.any (fun k => ciWordAt k cs) || matchSem4 cs

/-! ### `is_real_heading` -/

/-- The fixed field-label words rejected by `is_real_heading`. -/
def fieldWords : List String :=
  ["name", "age", "date", "designation", "service", "single", "amount"]

/-- Python `text.lower().replace(':', '').replace('.', '')`. -/
def fieldNormalize (s : String) : String :=
  String.mk ((s.data.map Char.toLower).filter (fun c => c ≠ ':' && c ≠ '.'))

/-- The admissibility filter `is_real_heading(text, block)`.  Returns
`Except.error ()` exactly where the Python function raises: when the
typography branch is reached (`len(text.split()) >= 2` holds and no earlier
branch returned) and `font_size` is `None`, Python evaluates `None > 12` and
raises `TypeError`. -/
def is_real_heading (text0 : String) (block : Block) : Except Unit Bool :=
  let text := pyStrip text0
  let cs := text.data
  if cs.length < 3 then Except.ok false
  else if formFieldMatch cs then Except.ok false
  else if fieldWords.contains (fieldNormalize text) then Except.ok false
  else if strongHeadingMatch cs then Except.ok true
  else if 2 ≤ (pySplit text).length then
    match block.font_size with
    | none => Except.error ()
    | some fs =>
      Except.ok ((decide ((12 : ℚ) < fs) || block.bold) && (pyIsTitle text || pyIsUpper text))
  else Except.ok false

/-! ### `detect_headings_universal` -/

/-- The size tier of the Stage-B score: `3` for `font_size >= 16`, `2` for
`>= 13`, `1` for `>= 11`, else `0`. -/
def sizeWeight (fs : ℚ) : ℚ :=
  if 16 ≤ fs then 3 else if 13 ≤ fs then 2 else if 11 ≤ fs then 1 else 0

/-- The full Stage-B score of a block whose `font_size` is `some fs`:
size weight, plus `1.5` if bold, plus `1.5` on a semantic pattern match
against the dash-normalised stripped text. -/
def blockScore (b : Block) (fs : ℚ) : ℚ :=
  sizeWeight fs + (if b.bold then 3 / 2 else 0) +
    (if semanticMatch (cleanDashes (pyStrip b.text)).data then 3 / 2 else 0)

/-- Level assignment of `detect_headings_universal`: `H1` for score `>= 5`,
`H2` for `>= 4`, else `H3`. -/
def levelOf (score : ℚ) : String :=
  if 5 ≤ score then "H1" else if 4 ≤ score then "H2" else "H3"

/-- The outline entry a block produces when accepted. -/
def entryOf (b : Block) : Entry :=
  { level := levelOf (blockScore b (b.font_size.getD 0)),
    text := pyStrip b.text,
    page := b.page + 1 }

/-- One iteration of the loop of `detect_headings_universal`: `st` is the
pair (seen set as a list, outline so far).  `Except.error ()` where the
Python loop raises: a block that survives `is_real_heading` but has
`font_size = None` reaches `font_size >= 16` and raises `TypeError` (and
`is_real_heading` itself can raise, see there). -/
def processBlock (threshold : ℚ) (st : List (String × Nat) × List Entry) (b : Block) :
    Except Unit (List (String × Nat) × List Entry) :=
  let text := pyStrip b.text
  if text.data.length < 3 then Except.ok st
  else if (text, b.page) ∈ st.1 then Except.ok st
  else
    match is_real_heading (cleanDashes text) b with
    | Except.error e => Except.error e
    | Except.ok false => Except.ok st
    | Except.ok true =>
      match b.font_size with
      | none => Except.error ()
      | some fs =>
        let score := blockScore b fs
        if threshold ≤ score then
          Except.ok ((text, b.page) :: st.1,
            st.2 ++ [{ level := levelOf score, text := text, page := b.page + 1 }])
        else Except.ok st

/-- The loop of `detect_headings_universal` over the remaining blocks. -/
def detectGo (threshold : ℚ) : List Block → List (String × Nat) → List Entry →
    Except Unit (List Entry)
  | [], _, outline => Except.ok outline
  | b :: rest, seen, outline =>
    match processBlock threshold (seen, outline) b with
    | Except.error e => Except.error e
    | Except.ok st => detectGo threshold rest st.1 st.2

/-- Function `detect_headings_universal(text_blocks, threshold)`. -/
def detect_headings_universal (blocks : List Block) (threshold : ℚ) :
    Except Unit (List Entry) :=
  detectGo threshold blocks [] []

/-! ### `get_document_title` -/

/-- The candidate loop of `get_document_title`: collects first-page blocks
with `font_size >= 8`, stripped length `>= 5` and at least two tokens.
When a block's `font_size` is `None`, Python evaluates `None >= 8` and raises
`TypeError`, so the whole call fails at the first such block. -/
def collectCandidates : List Block → Except Unit (List Block)
  | [] => Except.ok []
  | b :: rest =>
    match b.font_size with
    | none => Except.error ()
    | some fs =>
      let text := pyStrip b.text
      if 8 ≤ fs && 5 ≤ text.data.length && 2 ≤ (pySplit text).length then
        (collectCandidates rest).map (b :: ·)
      else collectCandidates rest

/-- The fallback loop of `get_document_title`: the first block whose stripped
text has length `>= 5`, else the empty string. -/
def titleFallback : List Block → String
  | [] => ""
  | b :: rest =>
    let t := pyStrip b.text
    if 5 ≤ t.data.length then t else titleFallback rest

/-- Strict comparison of the sort key `(font_size or 0, -y0)` used by
`title_candidates.sort(..., reverse=True)`. -/
def titleKeyLtB (a b : Block) : Bool :=
  a.font_size.getD 0 < b.font_size.getD 0 ||
    (a.font_size.getD 0 == b.font_size.getD 0 && b.y0 < a.y0)

/-- Selection by `title_candidates.sort(key=..., reverse=True)` followed by `[0]` selects
the first candidate (in original order) with the lexicographically largest
key, since Python's sort is stable and `reverse=True` keeps the original
order of equal keys.  `selectTitle b l` is that first argmax of `b :: l`:
the current best is replaced only by a strictly larger key. -/
def selectTitle (b : Block) : List Block → Block
  | [] => b
  | c :: rest => if titleKeyLtB b c then selectTitle c rest else selectTitle b rest

/-- Function `get_document_title(text_blocks)`: `first_page_blocks` is the `page == 0`
filter; the candidate loop either raises or yields the candidate list; with
no candidate the fallback loop runs, otherwise the stable descending sort
picks the first candidate with the maximal `(font_size or 0, -y0)` key. -/
def get_document_title (blocks : List Block) : Except Unit String :=
  match collectCandidates (blocks.filter (fun b => b.page == 0)) with
  | Except.error e => Except.error e
  | Except.ok [] => Except.ok (titleFallback (blocks.filter (fun b => b.page == 0)))
  | Except.ok (c :: cs) => Except.ok (pyStrip (selectTitle c cs).text)

/-! ### `is_form_document` -/

/-- The five `strong_form_indicators`. -/
def strong_form_indicators : List String :=
  ["application form for grant", "ltc advance", "government servant",
   "signature of government servant", "particulars furnished above are true"]

/-- The six `generic_form_indicators`. -/
def generic_form_indicators : List String :=
  ["application form", "name of the applicant", "date of birth",
   "father\x27s name", "mother\x27s name", "address"]

/-- Lower-cased, space-joined text of the blocks on pages 0 and 1. -/
def first_pages_text (blocks : List Block) : String :=
  pyLower (String.intercalate " " ((blocks.filter (fun b => b.page ≤ 1)).map Block.text))

/-- Python `sum(1 for indicator in indicators if indicator in text)`. -/
def indicatorScore (indicators : List String) (hay : String) : Nat :=
  (indicators.map (fun i => if strIn i hay then 1 else 0)).sum

/-- Function `is_form_document(text_blocks)`. -/
def is_form_document (blocks : List Block) : Bool :=
  if blocks.isEmpty then true
  else if 2 ≤ indicatorScore strong_form_indicators (first_pages_text blocks) then true
  else if 4 ≤ indicatorScore generic_form_indicators (first_pages_text blocks) then true
  else false

/-! ### Reading-order sort (line 45 of the source)

`text_blocks_with_properties.sort(key=lambda x: (x['page'], -x['y0']))` is a
stable ascending sort by `(page, -y0)`.  We embed it as a stable insertion
sort: `insBlock` inserts an element before the first existing element that is
not strictly smaller, so earlier-extracted elements keep their place among
equal keys. -/

/-- Strict comparison of the reading-order key `(page, -y0)`. -/
def readKeyLtB (a b : Block) : Bool :=
  a.page < b.page || (a.page == b.page && b.y0 < a.y0)

/-- Stable insertion for the reading-order sort. -/
def insBlock (a : Block) : List Block → List Block
  | [] => [a]
  | b :: bs => if readKeyLtB b a then b :: insBlock a bs else a :: b :: bs

/-- The reading-order sort itself. -/
def readingSort : List Block → List Block
  | [] => []
  | a :: rest => insBlock a (readingSort rest)

/-- Reading order as a relation: ascending page, and descending `y0` within
a page (the non-strict counterpart of `readKeyLtB`). -/
def readingLe (a b : Block) : Prop :=
  a.page < b.page ∨ (a.page = b.page ∧ b.y0 ≤ a.y0)

/-- Relation `titleBeats w d`: `w`'s title sort key `(font_size or 0, -y0)` is at
least `d`'s, i.e. `w` is ranked no worse than `d` by
`title_candidates.sort(..., reverse=True)`. -/
def titleBeats (w d : Block) : Prop :=
  d.font_size.getD 0 < w.font_size.getD 0 ∨
    (d.font_size.getD 0 = w.font_size.getD 0 ∧ w.y0 ≤ d.y0)

/-! ### Orchestration (`process_pdf_for_outline`, `process_all_pdfs`) -/

/-- The body of the `try:` block of `process_pdf_for_outline`, applied to the
already-extracted blocks: title, then form gate, then heading detection with
threshold 3. -/
def pipelineCore (blocks : List Block) : Except Unit DocumentResult :=
  match get_document_title blocks with
  | Except.error e => Except.error e
  | Except.ok title =>
    match (if is_form_document blocks then Except.ok []
           else detect_headings_universal blocks 3) with
    | Except.error e => Except.error e
    | Except.ok outline => Except.ok { title := pyStrip title, outline := outline }

/-- A document handed to the pipeline: either the extraction collaborator's
blocks, or `Except.error ()` when extraction itself raises (corrupt input);
either way the exception propagates to the same `try/except`. -/
def run_document (ext : Except Unit (List Block)) : Except Unit DocumentResult :=
  ext.bind pipelineCore

/-- Function `process_pdf_for_outline`: the `try/except` boundary converting any
failure into `{"title": "", "outline": []}`. -/
def process_pdf_for_outline (ext : Except Unit (List Block)) : DocumentResult :=
  match run_document ext with
  | Except.ok r => r
  | Except.error _ => { title := "", outline := [] }

/-- The pipeline on successfully extracted blocks. -/
def process_blocks (blocks : List Block) : DocumentResult :=
  process_pdf_for_outline (Except.ok blocks)

/-- The per-file loop of `process_all_pdfs`: one result per input document,
in order. -/
def process_all : List (Except Unit (List Block)) → List DocumentResult
  | [] => []
  | d :: rest => process_pdf_for_outline d :: process_all rest

/-! ### Concrete blocks used in scenario theorems and witnesses -/

/-- First-page fragment with no font metadata (`font_size = None`). -/
def nullTitleBlock : Block :=
  { text := "Hello World Title", page := 0, x0 := 0, y0 := 700, x1 := 0, y1 := 0,
    font_size := none, bold := false, line_height := 0 }

/-- Multi-token fragment, no strong-pattern match, `font_size = None`. -/
def nullPlainBlock : Block :=
  { text := "Great Document Heading", page := 0, x0 := 0, y0 := 650, x1 := 0, y1 := 0,
    font_size := none, bold := false, line_height := 0 }

/-- Fragment matching the `^Introduction` keyword pattern, `font_size = None`. -/
def nullIntroBlock : Block :=
  { text := "Introduction to Testing", page := 0, x0 := 0, y0 := 600, x1 := 0, y1 := 0,
    font_size := none, bold := false, line_height := 0 }

/-- Scenario fragment `{text: "1. Introduction", page: 0, font_size: 14, bold: true}`. -/
def introBlock : Block :=
  { text := "1. Introduction", page := 0, x0 := 0, y0 := 700, x1 := 0, y1 := 0,
    font_size := some 14, bold := true, line_height := 0 }

/-- Scenario fragment `"Name:"`. -/
def nameBlock : Block :=
  { text := "Name:", page := 0, x0 := 0, y0 := 650, x1 := 0, y1 := 0,
    font_size := some 10, bold := false, line_height := 0 }

/-- Scenario body-text fragment. -/
def bodyBlock : Block :=
  { text := "This is body text describing the project.", page := 0, x0 := 0, y0 := 600,
    x1 := 0, y1 := 0, font_size := some 10, bold := false, line_height := 0 }

/-- Title-scenario fragment "Annual Report 2024" at font size 24. -/
def annualBlock : Block :=
  { text := "Annual Report 2024", page := 0, x0 := 0, y0 := 700, x1 := 0, y1 := 0,
    font_size := some 24, bold := false, line_height := 0 }

/-- Title-scenario fragment "Draft Copy" at font size 10. -/
def draftBlock : Block :=
  { text := "Draft Copy", page := 0, x0 := 0, y0 := 750, x1 := 0, y1 := 0,
    font_size := some 10, bold := false, line_height := 0 }

/-- Title candidate with font size 10, high on the page (y0 = 700). -/
def alphaBlock : Block :=
  { text := "Alpha Project Plan", page := 0, x0 := 0, y0 := 700, x1 := 0, y1 := 0,
    font_size := some 10, bold := false, line_height := 0 }

/-- Title candidate with font size 10, low on the page (y0 = 100). -/
def betaBlock : Block :=
  { text := "Beta Project Plan", page := 0, x0 := 0, y0 := 100, x1 := 0, y1 := 0,
    font_size := some 10, bold := false, line_height := 0 }

/-- First-page fragment containing two strong form-indicator phrases. -/
def ltcBlock : Block :=
  { text := "Application for LTC advance by a Government Servant", page := 0, x0 := 0,
    y0 := 700, x1 := 0, y1 := 0, font_size := some 12, bold := false, line_height := 0 }

/-- First-page fragment containing the phrase "signature of government servant". -/
def signatureBlock : Block :=
  { text := "Signature of Government Servant", page := 0, x0 := 0, y0 := 700, x1 := 0,
    y1 := 0, font_size := some 12, bold := false, line_height := 0 }

end PdfOutline

deriving instance DecidableEq for Except

namespace PdfOutline

/-! ### Substring containment lemmas -/

/-- Characterisation of `isPrefixOf` by an existential. -/
theorem isPrefixOf_ex : ∀ (n t : List Char), n.isPrefixOf t = true ↔ ∃ r, t = n ++ r
  | [], t => by simp [List.isPrefixOf]
  | a :: as, [] => by simp [List.isPrefixOf]
  | a :: as, b :: bs => by
    simp only [List.isPrefixOf, Bool.and_eq_true, beq_iff_eq, isPrefixOf_ex as bs,
      List.cons_append, List.cons.injEq]
    constructor
    · rintro ⟨rfl, r, rfl⟩; exact ⟨r, rfl, rfl⟩
    · rintro ⟨r, rfl, rfl⟩; exact ⟨rfl, r, rfl⟩

/-- Characterisation of `listContains` by an existential. -/
theorem listContains_iff (n h : List Char) :
    listContains n h = true ↔ ∃ l r, h = l ++ (n ++ r) := by
  unfold listContains
  rw [List.any_eq_true]
  constructor
  · rintro ⟨t, ht, hp⟩
    rw [List.mem_tails] at ht
    obtain ⟨l, hl⟩ := ht
    rw [isPrefixOf_ex] at hp
    obtain ⟨r, rfl⟩ := hp
    exact ⟨l, r, hl.symm⟩
  · rintro ⟨l, r, rfl⟩
    refine ⟨n ++ r, ?_, ?_⟩
    · rw [List.mem_tails]; exact ⟨l, rfl⟩
    · rw [isPrefixOf_ex]; exact ⟨r, rfl⟩

/-- Substring containment is transitive (Python `a in b` and `b in c` give
`a in c`). -/
theorem strIn_trans {a b c : String} (h1 : strIn a b = true) (h2 : strIn b c = true) :
    strIn a c = true := by
  unfold strIn at h1 h2 ⊢
  rw [listContains_iff] at h1 h2 ⊢
  obtain ⟨l1, r1, e1⟩ := h1
  obtain ⟨l2, r2, e2⟩ := h2
  exact ⟨l2 ++ l1, r1 ++ r2, by rw [e2, e1]; simp [List.append_assoc]⟩

/-! ### Form-gate helper lemmas -/

/-- Strong-indicator count at least 2 forces form classification. -/
theorem is_form_document_of_strong (blocks : List Block)
    (h : 2 ≤ indicatorScore strong_form_indicators (first_pages_text blocks)) :
    is_form_document blocks = true := by
  by_cases hb : blocks.isEmpty <;> simp [is_form_document, hb, h]

/-- A form-classified document gets an empty outline from the pipeline. -/
theorem process_blocks_outline_of_form (blocks : List Block)
    (h : is_form_document blocks = true) :
    (process_blocks blocks).outline = [] := by
  show (match pipelineCore blocks with
    | Except.ok r => r
    | Except.error _ => { title := "", outline := [] }).outline = []
  unfold pipelineCore
  cases hg : get_document_title blocks with
  | error e => rfl
  | ok t => simp [h]

/-! ### Claim C1 -/

/-- C1: the claim states that fragments with null `font_size` are handled
without error, with null read as 0/false.  The code instead raises
`TypeError`: in `get_document_title` the candidate filter evaluates
`None >= 8` for any first-page block with null `font_size`; in
`is_real_heading` the typography branch evaluates `None > 12` for a ≥2-token
fragment; and in `detect_headings_universal` Stage B evaluates `None >= 16`
even for a fragment accepted through the keyword branch.  The error is then
swallowed at the document boundary, yielding `{title: "", outline: []}`
instead of the normal completion the claim describes. -/
theorem C1_null_font_size_typeerror :
    get_document_title [nullTitleBlock] = Except.error () ∧
    is_real_heading "Great Document Heading" nullPlainBlock = Except.error () ∧
    detect_headings_universal [nullIntroBlock] 3 = Except.error () ∧
    process_blocks [nullTitleBlock] = { title := "", outline := [] } := by
  refine ⟨?_, ?_, ?_, ?_⟩ <;> with_unfolding_all decide

/-! ### Claim C8 -/

/-- C8: the empty fragment sequence yields exactly
`{title: "", outline: []}` with no exception: `is_form_document` classifies
the empty list as a form, and title extraction falls through every candidate
and the fallback to the empty string. -/
theorem C8_empty_document :
    process_blocks [] = { title := "", outline := [] } ∧
    pipelineCore [] = Except.ok { title := "", outline := [] } ∧
    is_form_document [] = true ∧
    get_document_title [] = Except.ok "" := by
  refine ⟨?_, ?_, ?_, ?_⟩ <;> with_unfolding_all decide

/-! ### Claim C3 -/

/-- C3: whenever the lower-cased concatenated text of pages 0 and 1 contains
at least 2 of the 5 strong form-indicator phrases, the document is classified
as a form and the pipeline's outline is the empty list, regardless of any
heading scores. -/
theorem C3_form_gate_totality (blocks : List Block)
    (h : 2 ≤ indicatorScore strong_form_indicators (first_pages_text blocks)) :
    is_form_document blocks = true ∧ (process_blocks blocks).outline = [] :=
  have hf := is_form_document_of_strong blocks h
  ⟨hf, process_blocks_outline_of_form blocks hf⟩

/-- Witness for C3: a concrete first-page fragment whose text contains both
"ltc advance" and "government servant". -/
theorem C3_form_gate_totality_witness :
    2 ≤ indicatorScore strong_form_indicators (first_pages_text [ltcBlock]) ∧
      (is_form_document [ltcBlock] = true ∧ (process_blocks [ltcBlock]).outline = []) :=
  ⟨by decide, C3_form_gate_totality [ltcBlock] (by decide)⟩

/-! ### Claim C10 -/

/-- C10: because indicator matching is substring containment and
"government servant" is a substring of "signature of government servant",
any document whose first-two-page text contains the single phrase
"signature of government servant" counts 2 strong indicators and is
classified as a form, forcing an empty outline. -/
theorem C10_overlapping_indicators (blocks : List Block)
    (h : strIn "signature of government servant" (first_pages_text blocks) = true) :
    2 ≤ indicatorScore strong_form_indicators (first_pages_text blocks) ∧
      is_form_document blocks = true ∧ (process_blocks blocks).outline = [] := by
  have hg : strIn "government servant" (first_pages_text blocks) = true :=
    strIn_trans (by decide) h
  have hs : 2 ≤ indicatorScore strong_form_indicators (first_pages_text blocks) := by
    unfold indicatorScore strong_form_indicators
    simp only [List.map_cons, List.map_nil, List.sum_cons, List.sum_nil, h, hg, if_true]
    split_ifs <;> omega
  exact ⟨hs, is_form_document_of_strong blocks hs,
    process_blocks_outline_of_form blocks (is_form_document_of_strong blocks hs)⟩

/-- Witness for C10: a fragment whose text is exactly
"Signature of Government Servant". -/
theorem C10_overlapping_indicators_witness :
    strIn "signature of government servant" (first_pages_text [signatureBlock]) = true ∧
      (2 ≤ indicatorScore strong_form_indicators (first_pages_text [signatureBlock]) ∧
        is_form_document [signatureBlock] = true ∧
        (process_blocks [signatureBlock]).outline = []) :=
  ⟨by decide, C10_overlapping_indicators [signatureBlock] (by decide)⟩

/-! ### Claim C6 -/

/-- A failing document pipeline is converted at the boundary. -/
theorem process_pdf_of_error (ext : Except Unit (List Block)) (e : Unit)
    (h : run_document ext = Except.error e) :
    process_pdf_for_outline ext = { title := "", outline := [] } := by
  unfold process_pdf_for_outline
  rw [h]

/-- C6: any failure inside the per-document pipeline is caught at the
document boundary and converted to `{title: "", outline: []}`, and a failing
document in the middle of a batch leaves every other document's result
unchanged. -/
theorem C6_error_boundary :
    (∀ (ext : Except Unit (List Block)) (e : Unit),
        run_document ext = Except.error e →
        process_pdf_for_outline ext = { title := "", outline := [] }) ∧
    (∀ (pre post : List (Except Unit (List Block)))
        (bad : Except Unit (List Block)) (e : Unit),
        run_document bad = Except.error e →
        process_all (pre ++ bad :: post) =
          process_all pre ++ { title := "", outline := [] } :: process_all post) := by
  refine ⟨process_pdf_of_error, ?_⟩
  intro pre post bad e h
  induction pre with
  | nil => simp [process_all, process_pdf_of_error bad e h]
  | cons d rest ih => simp [process_all, ih]

/-- Witness for C6: a document whose extraction fails. -/
theorem C6_error_boundary_witness :
    process_pdf_for_outline (Except.error ()) = { title := "", outline := [] } ∧
      process_all [Except.error ()] = [{ title := "", outline := [] }] := by
  refine ⟨C6_error_boundary.1 (Except.error ()) () rfl, ?_⟩
  have h := C6_error_boundary.2 [] [] (Except.error ()) () rfl
  simpa [process_all] using h

/-! ### Reading-order sort lemmas (for C7) -/

/-- A failed strict comparison yields the non-strict reverse relation. -/
theorem readingLe_of_not_lt {a b : Block} (h : readKeyLtB b a = false) :
    readingLe a b := by
  simp only [readKeyLtB, Bool.or_eq_false_iff, Bool.and_eq_false_iff,
    decide_eq_false_iff_not, beq_eq_false_iff_ne, ne_eq, not_lt] at h
  obtain ⟨h1, h2⟩ := h
  by_cases hp : a.page = b.page
  · rcases h2 with h2 | h2
    · exact absurd hp.symm h2
    · exact Or.inr ⟨hp, h2⟩
  · exact Or.inl (by omega)

/-- A successful strict comparison also gives the non-strict relation. -/
theorem readingLe_of_lt {a b : Block} (h : readKeyLtB a b = true) :
    readingLe a b := by
  simp only [readKeyLtB, Bool.or_eq_true, Bool.and_eq_true, decide_eq_true_eq,
    beq_iff_eq] at h
  rcases h with h | ⟨h1, h2⟩
  · exact Or.inl h
  · exact Or.inr ⟨h1, le_of_lt h2⟩

/-- Transitivity of `readingLe`. -/
theorem readingLe_trans {a b c : Block} (h1 : readingLe a b) (h2 : readingLe b c) :
    readingLe a c := by
  rcases h1 with h1 | ⟨h1, h1'⟩ <;> rcases h2 with h2 | ⟨h2, h2'⟩
  · exact Or.inl (by omega)
  · exact Or.inl (by omega)
  · exact Or.inl (by omega)
  · exact Or.inr ⟨by omega, le_trans h2' h1'⟩

/-- Members of `insBlock a l` are `a` or members of `l`. -/
theorem mem_insBlock {x a : Block} : ∀ {l : List Block},
    x ∈ insBlock a l → x = a ∨ x ∈ l
  | [], h => by simpa [insBlock] using h
  | b :: bs, h => by
    simp only [insBlock] at h
    split at h
    · rcases List.mem_cons.mp h with rfl | h
      · exact Or.inr (List.mem_cons_self _ _)
      · rcases mem_insBlock h with rfl | h
        · exact Or.inl rfl
        · exact Or.inr (List.mem_cons_of_mem _ h)
    · rcases List.mem_cons.mp h with rfl | h
      · exact Or.inl rfl
      · exact Or.inr h

/-- Insertion preserves sortedness. -/
theorem pairwise_insBlock {a : Block} : ∀ {l : List Block},
    l.Pairwise readingLe → (insBlock a l).Pairwise readingLe
  | [], _ => List.pairwise_singleton _ _
  | b :: bs, h => by
    rw [List.pairwise_cons] at h
    obtain ⟨hb, hbs⟩ := h
    simp only [insBlock]
    split
    · rename_i hlt
      rw [List.pairwise_cons]
      refine ⟨?_, pairwise_insBlock hbs⟩
      intro x hx
      rcases mem_insBlock hx with rfl | hx
      · exact readingLe_of_lt hlt
      · exact hb x hx
    · rename_i hlt
      have hlt' : readKeyLtB b a = false := by simpa using hlt
      rw [List.pairwise_cons]
      refine ⟨?_, List.pairwise_cons.mpr ⟨hb, hbs⟩⟩
      intro x hx
      rcases List.mem_cons.mp hx with rfl | hx
      · exact readingLe_of_not_lt hlt'
      · exact readingLe_trans (readingLe_of_not_lt hlt') (hb x hx)

/-- Insertion is a permutation of consing. -/
theorem perm_insBlock (a : Block) : ∀ (l : List Block), (insBlock a l).Perm (a :: l)
  | [] => List.Perm.refl _
  | b :: bs => by
    simp only [insBlock]
    split
    · exact ((perm_insBlock a bs).cons b).trans (List.Perm.swap a b bs)
    · exact List.Perm.refl _

/-- Insertion commutes with filtering by a predicate `q` that pins down the
sort key (any two `q`-elements compare as equal keys). -/
theorem filter_insBlock (a : Block) (q : Block → Bool)
    (hkey : ∀ x1 x2, q x1 = true → q x2 = true → readKeyLtB x1 x2 = false) :
    ∀ (l : List Block),
    (insBlock a l).filter q = (if q a then [a] else []) ++ l.filter q
  | [] => by cases hqa : q a <;> simp [insBlock, List.filter_cons, hqa]
  | b :: bs => by
    by_cases hlt : readKeyLtB b a = true
    · have hrec := filter_insBlock a q hkey bs
      cases hqa : q a with
      | true =>
        have hqb : q b = false := by
          by_contra hc
          rw [Bool.not_eq_false] at hc
          rw [hkey b a hc hqa] at hlt
          exact Bool.false_ne_true hlt
        simp [insBlock, hlt, List.filter_cons, hqb, hrec, hqa]
      | false => simp [insBlock, hlt, List.filter_cons, hrec, hqa]
    · have hlt' : readKeyLtB b a = false := by simpa using hlt
      cases hqa : q a <;> simp [insBlock, hlt', List.filter_cons, hqa]

/-- C7: the reading-order sorter permutes the fragments into a sequence
ordered by ascending page and, within a page, descending `y0`; fragments
with equal page and `y0` keep their relative extraction order (stability,
expressed by preservation of every exact-key filter). -/
theorem C7_reading_order_sort (l : List Block) :
    (readingSort l).Perm l ∧
    (readingSort l).Pairwise readingLe ∧
    ∀ (p : Nat) (y : ℚ),
      (readingSort l).filter (fun x => x.page == p && x.y0 == y) =
        l.filter (fun x => x.page == p && x.y0 == y) := by
  have hkey : ∀ (p : Nat) (y : ℚ) (x1 x2 : Block),
      (x1.page == p && x1.y0 == y) = true → (x2.page == p && x2.y0 == y) = true →
      readKeyLtB x1 x2 = false := by
    intro p y x1 x2 h1 h2
    simp only [Bool.and_eq_true, beq_iff_eq] at h1 h2
    simp [readKeyLtB, h1.1, h1.2, h2.1, h2.2]
  induction l with
  | nil => exact ⟨List.Perm.refl _, List.Pairwise.nil, fun p y => rfl⟩
  | cons a rest ih =>
    obtain ⟨ihp, ihs, ihf⟩ := ih
    refine ⟨?_, ?_, ?_⟩
    · exact (perm_insBlock a (readingSort rest)).trans (ihp.cons a)
    · exact pairwise_insBlock ihs
    · intro p y
      show (insBlock a (readingSort rest)).filter _ = _
      rw [filter_insBlock a _ (hkey p y), ihf p y, List.filter_cons]
      cases hqa : (a.page == p && a.y0 == y) <;> simp [hqa]

/-! ### Title-selection lemmas (for C2) -/

/-- Reflexivity of `titleBeats`. -/
theorem titleBeats_refl (b : Block) : titleBeats b b := Or.inr ⟨rfl, le_refl _⟩

/-- Transitivity of `titleBeats`. -/
theorem titleBeats_trans {x y z : Block} (h1 : titleBeats x y) (h2 : titleBeats y z) :
    titleBeats x z := by
  unfold titleBeats at h1 h2 ⊢
  rcases h1 with h1 | ⟨h1, h1'⟩ <;> rcases h2 with h2 | ⟨h2, h2'⟩
  · exact Or.inl (by linarith)
  · exact Or.inl (by linarith)
  · exact Or.inl (by linarith)
  · exact Or.inr ⟨by linarith, by linarith⟩

/-- A strictly larger key beats. -/
theorem titleBeats_of_ltB {b c : Block} (h : titleKeyLtB b c = true) : titleBeats c b := by
  unfold titleKeyLtB at h
  simp only [Bool.or_eq_true, Bool.and_eq_true, decide_eq_true_eq, beq_iff_eq] at h
  exact h.imp id (fun hp => ⟨hp.1, le_of_lt hp.2⟩)

/-- A failed strict comparison beats the other way. -/
theorem titleBeats_of_not_ltB {b c : Block} (h : titleKeyLtB b c = false) :
    titleBeats b c := by
  unfold titleKeyLtB at h
  unfold titleBeats
  by_cases h1 : b.font_size.getD 0 < c.font_size.getD 0
  · simp [h1] at h
  · by_cases h2 : b.font_size.getD 0 = c.font_size.getD 0
    · by_cases h3 : c.y0 < b.y0
      · simp [h1, h2, h3] at h
      · exact Or.inr ⟨h2.symm, not_lt.mp h3⟩
    · exact Or.inl (lt_of_le_of_ne (not_lt.mp h1) (fun he => h2 he.symm))

/-- The selection `selectTitle b l` is the first argmax of `b :: l` under the title key:
it is one of the inputs and its key beats every input's key. -/
theorem selectTitle_spec : ∀ (l : List Block) (b : Block),
    (selectTitle b l = b ∨ selectTitle b l ∈ l) ∧
    titleBeats (selectTitle b l) b ∧
    ∀ d ∈ l, titleBeats (selectTitle b l) d
  | [], b => ⟨Or.inl rfl, titleBeats_refl b, by simp⟩
  | c :: rest, b => by
    simp only [selectTitle]
    by_cases hbc : titleKeyLtB b c = true
    · rw [if_pos hbc]
      obtain ⟨hmem, hbeats, hall⟩ := selectTitle_spec rest c
      refine ⟨?_, ?_, ?_⟩
      · rcases hmem with h | h
        · exact Or.inr (by rw [h]; exact List.mem_cons_self _ _)
        · exact Or.inr (List.mem_cons_of_mem _ h)
      · exact titleBeats_trans hbeats (titleBeats_of_ltB hbc)
      · intro d hd
        rcases List.mem_cons.mp hd with rfl | hd
        · exact hbeats
        · exact hall d hd
    · have hbc' : titleKeyLtB b c = false := by simpa using hbc
      rw [if_neg hbc]
      obtain ⟨hmem, hbeats, hall⟩ := selectTitle_spec rest b
      refine ⟨?_, ?_, ?_⟩
      · rcases hmem with h | h
        · exact Or.inl h
        · exact Or.inr (List.mem_cons_of_mem _ h)
      · exact hbeats
      · intro d hd
        rcases List.mem_cons.mp hd with rfl | hd
        · exact titleBeats_trans hbeats (titleBeats_of_not_ltB hbc')
        · exact hall d hd

/-! ### Claim C2 -/

/-- C2 counterexample: two first-page candidates with equal font size 10;
`alphaBlock` sits higher on the page (`y0 = 700 > 100`), yet the title is
`betaBlock`'s text — among equal font sizes the code's descending sort by
`(font_size, -y0)` puts the *smallest* `y0` first, so the fragment closest
to the *bottom* wins, contradicting the claim that the largest `y0` wins. -/
theorem C2_counterexample_largest_y0_loses :
    collectCandidates ([alphaBlock, betaBlock].filter (fun b => b.page == 0)) =
        Except.ok [alphaBlock, betaBlock] ∧
    alphaBlock.font_size = betaBlock.font_size ∧
    betaBlock.y0 < alphaBlock.y0 ∧
    get_document_title [alphaBlock, betaBlock] = Except.ok "Beta Project Plan" ∧
    pyStrip alphaBlock.text ≠ "Beta Project Plan" := by
  refine ⟨?_, ?_, ?_, ?_, ?_⟩ <;> with_unfolding_all decide

/-- C2 (amended): among the first-page candidate fragments the one with the
largest font size is selected, and among candidates with equal font size the
fragment with the *smallest* `y0` (closest to the bottom of the page) wins —
the selected candidate's key `(font_size, -y0)` beats every candidate's key;
and on the scenario the title is "Annual Report 2024". -/
theorem C2_title_selection :
    (∀ (blocks : List Block) (c : Block) (cs : List Block),
        collectCandidates (blocks.filter (fun b => b.page == 0)) = Except.ok (c :: cs) →
        get_document_title blocks = Except.ok (pyStrip (selectTitle c cs).text) ∧
        (selectTitle c cs = c ∨ selectTitle c cs ∈ cs) ∧
        ∀ d, (d = c ∨ d ∈ cs) → titleBeats (selectTitle c cs) d) ∧
    get_document_title [annualBlock, draftBlock] = Except.ok "Annual Report 2024" := by
  constructor
  · intro blocks c cs h
    refine ⟨?_, (selectTitle_spec cs c).1, ?_⟩
    · unfold get_document_title
      rw [h]
    · intro d hd
      rcases hd with rfl | hd
      · exact (selectTitle_spec cs d).2.1
      · exact (selectTitle_spec cs c).2.2 d hd
  · with_unfolding_all decide

/-- Witness for C2: the scenario candidates are `[annualBlock, draftBlock]`
and the theorem applies to them. -/
theorem C2_title_selection_witness :
    collectCandidates ([annualBlock, draftBlock].filter (fun b => b.page == 0)) =
        Except.ok [annualBlock, draftBlock] ∧
    get_document_title [annualBlock, draftBlock] =
        Except.ok (pyStrip (selectTitle annualBlock [draftBlock]).text) :=
  ⟨by with_unfolding_all decide,
   (C2_title_selection.1 [annualBlock, draftBlock] annualBlock [draftBlock]
      (by with_unfolding_all decide)).1⟩

/-! ### Claim C5 -/

/-- C5: for a fragment that passes the loop pre-checks and survives Stage A
with known font size `fs`, one loop iteration of the document pipeline
(threshold 3) appends the entry exactly when `blockScore b fs ≥ 3` — the
score being size weight (3/2/1/0 at the 16/13/11 cut-offs) plus 1.5 for bold
plus 1.5 for a semantic pattern match — with level H1 at score ≥ 5, H2 at
≥ 4, else H3, and 1-based output page; on the scenario the outline is
exactly `[{level: "H1", text: "1. Introduction", page: 1}]`, so "Name:" is
excluded. -/
theorem C5_stage_b_scoring :
    (∀ (seen : List (String × Nat)) (outline : List Entry) (b : Block) (fs : ℚ),
        b.font_size = some fs →
        3 ≤ (pyStrip b.text).data.length →
        (pyStrip b.text, b.page) ∉ seen →
        is_real_heading (cleanDashes (pyStrip b.text)) b = Except.ok true →
        processBlock 3 (seen, outline) b =
          Except.ok (if 3 ≤ blockScore b fs
            then ((pyStrip b.text, b.page) :: seen,
                  outline ++ [{ level := levelOf (blockScore b fs),
                                text := pyStrip b.text, page := b.page + 1 }])
            else (seen, outline))) ∧
    blockScore introBlock 14 = 5 ∧
    (process_blocks [introBlock, nameBlock, bodyBlock]).outline =
      [{ level := "H1", text := "1. Introduction", page := 1 }] := by
  refine ⟨?_, by with_unfolding_all decide, by with_unfolding_all decide⟩
  intro seen outline b fs hfs hlen hseen hreal
  unfold processBlock
  rw [if_neg (by omega), if_neg hseen, hreal, hfs]
  by_cases hsc : 3 ≤ blockScore b fs <;> simp [hsc]

/-- Witness for C5: one iteration on `introBlock` from the empty state. -/
theorem C5_stage_b_scoring_witness :
    processBlock 3 ([], []) introBlock =
      Except.ok ([("1. Introduction", 0)],
        [{ level := "H1", text := "1. Introduction", page := 1 }]) := by
  have h := C5_stage_b_scoring.1 [] [] introBlock 14 rfl (by decide)
    (by simp) (by with_unfolding_all decide)
  exact h.trans (by with_unfolding_all decide)

/-! ### Loop-invariant lemmas for `detect_headings_universal` (C4, C9) -/

/-- An iteration of the detection loop either leaves the state unchanged or
appends `entryOf b` and records its `(text, page)` key, which was not yet in
the seen set. -/
theorem processBlock_spec (th : ℚ) (st : List (String × Nat) × List Entry) (b : Block)
    (st' : List (String × Nat) × List Entry)
    (h : processBlock th st b = Except.ok st') :
    st' = st ∨
      ((pyStrip b.text, b.page) ∉ st.1 ∧
        st' = ((pyStrip b.text, b.page) :: st.1, st.2 ++ [entryOf b])) := by
  simp only [processBlock] at h
  split at h
  · exact Or.inl (Except.ok.inj h).symm
  · split at h
    · exact Or.inl (Except.ok.inj h).symm
    · rename_i hseen
      split at h
      · exact absurd h (by simp)
      · exact Or.inl (Except.ok.inj h).symm
      · rename_i hreal
        split at h
        · exact absurd h (by simp)
        · rename_i fs hfs
          split at h
          · rename_i hsc
            refine Or.inr ⟨hseen, (Except.ok.inj h).symm.trans ?_⟩
            simp [entryOf, hfs]
          · exact Or.inl (Except.ok.inj h).symm

/-- The keys of the outline entries stay distinct through the loop, given
that every existing entry's key is the shift of a seen key. -/
theorem detectGo_nodup (th : ℚ) (blocks : List Block) :
    ∀ (seen : List (String × Nat)) (outline res : List Entry),
      outline.Pairwise (fun a b => (a.text, a.page) ≠ (b.text, b.page)) →
      (∀ e ∈ outline, (e.text, e.page) ∈ seen.map (fun s => (s.1, s.2 + 1))) →
      detectGo th blocks seen outline = Except.ok res →
      res.Pairwise (fun a b => (a.text, a.page) ≠ (b.text, b.page)) := by
  induction blocks with
  | nil =>
    intro seen outline res hpw hmem h
    simp only [detectGo] at h
    exact (Except.ok.inj h) ▸ hpw
  | cons b rest ih =>
    intro seen outline res hpw hmem h
    simp only [detectGo] at h
    cases hp : processBlock th (seen, outline) b with
    | error e => rw [hp] at h; exact absurd h (by simp)
    | ok st' =>
      rw [hp] at h
      rcases processBlock_spec th (seen, outline) b st' hp with rfl | ⟨hnot, rfl⟩
      · exact ih seen outline res hpw hmem h
      · refine ih _ _ res ?_ ?_ h
        · rw [List.pairwise_append]
          refine ⟨hpw, List.pairwise_singleton _ _, ?_⟩
          intro e he e' he'
          rw [List.mem_singleton] at he'
          subst he'
          intro hk
          have hmem' := hmem e he
          rw [hk] at hmem'
          simp only [entryOf, List.mem_map] at hmem'
          obtain ⟨s, hs, hseq⟩ := hmem'
          have : s = (pyStrip b.text, b.page) := by
            have h1 := congrArg Prod.fst hseq
            have h2 := congrArg Prod.snd hseq
            simp at h1 h2
            exact Prod.ext h1 (by omega)
          exact hnot (this ▸ hs)
        · intro e he
          rcases List.mem_append.mp he with he | he
          · rw [List.map_cons]
            exact List.mem_cons_of_mem _ (hmem e he)
          · rw [List.mem_singleton] at he
            subst he
            rw [List.map_cons]
            exact List.mem_cons_self _ _

/-- The outline grows as a map of `entryOf` over a sublist of the scanned
blocks. -/
theorem detectGo_selection (th : ℚ) (blocks : List Block) :
    ∀ (seen : List (String × Nat)) (outline res : List Entry),
      detectGo th blocks seen outline = Except.ok res →
      ∃ sel : List Block, sel.Sublist blocks ∧ res = outline ++ sel.map entryOf := by
  induction blocks with
  | nil =>
    intro seen outline res h
    simp only [detectGo] at h
    exact ⟨[], List.nil_sublist _, by simpa using (Except.ok.inj h).symm⟩
  | cons b rest ih =>
    intro seen outline res h
    simp only [detectGo] at h
    cases hp : processBlock th (seen, outline) b with
    | error e => rw [hp] at h; exact absurd h (by simp)
    | ok st' =>
      rw [hp] at h
      rcases processBlock_spec th (seen, outline) b st' hp with rfl | ⟨hnot, rfl⟩
      · obtain ⟨sel, hsub, hres⟩ := ih seen outline res h
        exact ⟨sel, hsub.cons b, hres⟩
      · obtain ⟨sel, hsub, hres⟩ := ih _ _ res h
        refine ⟨b :: sel, hsub.cons₂ b, ?_⟩
        rw [hres, List.map_cons]
        simp

/-! ### Claim C4 -/

/-- C4: no outline ever contains two entries with the same `(text, page)`
pair — both for any successful run of `detect_headings_universal` at any
threshold, and for the outline the whole pipeline returns on any input. -/
theorem C4_no_duplicate_pairs :
    (∀ (blocks : List Block) (th : ℚ) (res : List Entry),
        detect_headings_universal blocks th = Except.ok res →
        res.Pairwise (fun a b => (a.text, a.page) ≠ (b.text, b.page))) ∧
    ∀ blocks : List Block,
      (process_blocks blocks).outline.Pairwise
        (fun a b => (a.text, a.page) ≠ (b.text, b.page)) := by
  have hdet : ∀ (blocks : List Block) (th : ℚ) (res : List Entry),
      detect_headings_universal blocks th = Except.ok res →
      res.Pairwise (fun a b => (a.text, a.page) ≠ (b.text, b.page)) :=
    fun blocks th res h =>
      detectGo_nodup th blocks [] [] res List.Pairwise.nil (by simp) h
  refine ⟨hdet, ?_⟩
  intro blocks
  show (match pipelineCore blocks with
    | Except.ok r => r
    | Except.error _ => { title := "", outline := [] }).outline.Pairwise _
  unfold pipelineCore
  cases hg : get_document_title blocks with
  | error e => exact List.Pairwise.nil
  | ok t =>
    by_cases hf : is_form_document blocks = true
    · simp only [if_pos hf]
      exact List.Pairwise.nil
    · simp only [if_neg hf]
      cases hd : detect_headings_universal blocks 3 with
      | error e => exact List.Pairwise.nil
      | ok o => exact hdet blocks 3 o hd

/-- Witness for C4: a run with a duplicated input fragment, where the second
occurrence is skipped. -/
theorem C4_no_duplicate_pairs_witness :
    ([{ level := "H1", text := "1. Introduction", page := 1 }] : List Entry).Pairwise
      (fun a b => (a.text, a.page) ≠ (b.text, b.page)) :=
  C4_no_duplicate_pairs.1 [introBlock, introBlock] 3
    [{ level := "H1", text := "1. Introduction", page := 1 }]
    (by with_unfolding_all decide)

/-! ### Claim C9 -/

/-- C9: on a reading-order-sorted input, the outline of the document
pipeline's heading detection is `entryOf` mapped over a reading-order-sorted
sublist of the input blocks; consequently output pages are non-decreasing,
and consecutive same-page entries come from source fragments whose `y0` does
not increase. -/
theorem C9_outline_reading_order (blocks : List Block) (res : List Entry)
    (hsorted : blocks.Pairwise readingLe)
    (h : detect_headings_universal blocks 3 = Except.ok res) :
    ∃ sel : List Block, sel.Sublist blocks ∧ res = sel.map entryOf ∧
      sel.Pairwise readingLe ∧
      res.Pairwise (fun e1 e2 => e1.page ≤ e2.page) ∧
      sel.Pairwise (fun b1 b2 => b1.page = b2.page → b2.y0 ≤ b1.y0) := by
  obtain ⟨sel, hsub, hres⟩ := detectGo_selection 3 blocks [] [] res h
  rw [List.nil_append] at hres
  have hselp : sel.Pairwise readingLe := List.Pairwise.sublist hsub hsorted
  refine ⟨sel, hsub, hres, hselp, ?_, ?_⟩
  · rw [hres, List.pairwise_map]
    refine hselp.imp ?_
    intro a b hab
    rcases hab with hab | ⟨hab, _⟩ <;> simp [entryOf] <;> omega
  · refine hselp.imp ?_
    intro a b hab hpage
    rcases hab with hab | ⟨_, hy⟩
    · omega
    · exact hy

/-- Witness for C9: the singleton scenario input. -/
theorem C9_outline_reading_order_witness :
    ∃ sel : List Block, sel.Sublist [introBlock] ∧
      [({ level := "H1", text := "1. Introduction", page := 1 } : Entry)] =
        sel.map entryOf ∧
      sel.Pairwise readingLe ∧
      ([({ level := "H1", text := "1. Introduction", page := 1 } : Entry)]).Pairwise
        (fun e1 e2 => e1.page ≤ e2.page) ∧
      sel.Pairwise (fun b1 b2 => b1.page = b2.page → b2.y0 ≤ b1.y0) :=
  C9_outline_reading_order [introBlock]
    [{ level := "H1", text := "1. Introduction", page := 1 }]
    (List.pairwise_singleton _ _) (by with_unfolding_all decide)

end PdfOutline
